import Mathlib

/-!
Verification of the core of the autospoof repository (src/autospoof.ts,
second revision of the file, whose line numbers the claims cite) against
its natural-language specification. JavaScript strings are sequences of
UTF-16 code units and are modelled as lists of naturals; all inputs in
this development are ASCII, where one Lean character is one code unit.
-/

namespace Autospoof

/-- A JavaScript string, modelled as its sequence of UTF-16 code units. -/
abbrev JStr := List Nat

/-- Code units of an ASCII Lean string literal, for writing concrete JavaScript strings. -/
def jstr (s : String) : JStr := s.toList.map Char.toNat

/-- Whitespace code units stripped by String.prototype.trim, restricted to the ASCII range: tab, line feed, vertical tab, form feed, carriage return, space. -/
def isJsWhite (u : Nat) : Bool := u = 9 || u = 10 || u = 11 || u = 12 || u = 13 || u = 32

/-- Embedding of String.prototype.trim: drop leading and trailing whitespace units. -/
def jsTrim (s : JStr) : JStr := ((s.dropWhile isJsWhite).reverse.dropWhile isJsWhite).reverse

/-- Action of String.prototype.toUpperCase on one code unit, in the ASCII range: 97 to 122 are the lowercase letters, 32 below their uppercase forms. -/
def upUnit (u : Nat) : Nat := if 97 ≤ u ∧ u ≤ 122 then u - 32 else u

/-- Embedding of String.prototype.toUpperCase on ASCII input. -/
def jsToUpper (s : JStr) : JStr := s.map upUnit

/-- Action of String.prototype.toLowerCase on one code unit, in the ASCII range: 65 to 90 are the uppercase letters. -/
def lowUnit (u : Nat) : Nat := if 65 ≤ u ∧ u ≤ 90 then u + 32 else u

/-- Embedding of String.prototype.toLowerCase on ASCII input. -/
def jsToLower (s : JStr) : JStr := s.map lowUnit

/-- The character class [a-z0-9]: code units 97 to 122 (lowercase letters) and 48 to 57 (digits). -/
def isLowerAlnum (u : Nat) : Prop := (97 ≤ u ∧ u ≤ 122) ∨ (48 ≤ u ∧ u ≤ 57)

instance (u : Nat) : Decidable (isLowerAlnum u) := by
  unfold isLowerAlnum
  infer_instance

/-- Embedding of safeName (src/autospoof.ts line 318): str.toLowerCase().replace(/[^a-z0-9]/g, "-"). Code unit 45 is the hyphen that replaces every unit outside [a-z0-9]. -/
def safeName (s : JStr) : JStr := (jsToLower s).map (fun u => if isLowerAlnum u then u else 45)

/-- One element of a paragraph in a Google Docs document body: textRun?.content, which may be absent. -/
structure ParElement where
  content : Option JStr
deriving DecidableEq, Repr

/-- One structural element of a document body: paragraph?.elements, absent when the item carries no paragraph or the paragraph has no elements array. -/
structure StructuralElement where
  elements : Option (List ParElement)
deriving DecidableEq, Repr

/-- Embedding of the inner run loop of the body assembly (src/autospoof.ts lines 448-454): a run is skipped when its content is absent, empty, or its trimmed content uppercased equals the document name; otherwise the content is appended to the accumulator. -/
def runsLoop (name : JStr) : List ParElement → JStr → JStr
  | [], acc => acc
  | r :: rest, acc =>
    match r.content with
    | none => runsLoop name rest acc
    | some t => runsLoop name rest (if t = [] ∨ jsToUpper (jsTrim t) = name then acc else acc ++ t)

/-- Embedding of the outer body loop (src/autospoof.ts lines 444-455): iterate document?.body?.content, skipping items without paragraph elements. -/
def bodyLoop (name : JStr) : List StructuralElement → JStr → JStr
  | [], acc => acc
  | se :: rest, acc =>
    match se.elements with
    | none => bodyLoop name rest acc
    | some runs => bodyLoop name rest (runsLoop name runs acc)

/-- The assembled raw body of a document, before the final trim. -/
def rawBody (name : JStr) (content : List StructuralElement) : JStr := bodyLoop name content []

/-- Embedding of body.split(newline)[0] (src/autospoof.ts line 458): the prefix of the string before the first line feed (unit 10), or the whole string when it has none. -/
def splitFirstLine (s : JStr) : JStr := s.takeWhile (fun u => u != 10)

/-- An extracted article record (the FullArticle interface of the source); image holds the filename returned by save when one was written. -/
structure FullArticle where
  title : JStr
  subtitle : Option JStr
  body : JStr
  image : Option JStr
deriving DecidableEq, Repr

/-- Embedding of the article record pushed at src/autospoof.ts lines 456-463: title is the document name, subtitle is the first line of the untrimmed body, body is the trimmed accumulator. -/
def extractArticle (name : JStr) (content : List StructuralElement) (image : Option JStr) : FullArticle :=
  { title := name
    subtitle := some (splitFirstLine (rawBody name content))
    body := jsTrim (rawBody name content)
    image := image }

/-- The run contents of a document body, flattened in document order, keeping the optional shape of each content field. -/
def runContents (content : List StructuralElement) : List (Option JStr) :=
  ((content.filterMap StructuralElement.elements).flatten).map ParElement.content

/-- The contribution of one run under the skip rule the code actually applies: drop absent and empty runs and runs whose trimmed content, uppercased, equals the document name verbatim. -/
def keptRun (name : JStr) (oc : Option JStr) : Option JStr :=
  match oc with
  | none => none
  | some t => if t = [] ∨ jsToUpper (jsTrim t) = name then none else some t

/-- Stated from the claim wording of C4: a run is skipped exactly when its trimmed content equals the document name under a case-insensitive comparison (both sides uppercased); the remaining contents are concatenated and the result trimmed. -/
def specBodyC4 (name : JStr) (content : List StructuralElement) : JStr :=
  jsTrim ((((content.filterMap StructuralElement.elements).flatten.filterMap ParElement.content).filter
    (fun t => !(jsToUpper (jsTrim t) == jsToUpper name))).flatten)

/-- The concrete document of C5: three paragraphs carrying one text run each, the first two runs ending in a line feed. -/
def fooDoc : List StructuralElement :=
  [⟨some [⟨some (jstr "FOO\n")⟩]⟩,
   ⟨some [⟨some (jstr "The actual story.\n")⟩]⟩,
   ⟨some [⟨some (jstr "More text.")⟩]⟩]

/-- The concrete document of the C4 counterexample: a document whose name is the mixed-case Foo and whose paragraph carries the runs Foo with a line feed and More. -/
def cexC4Doc : List StructuralElement :=
  [⟨some [⟨some (jstr "Foo\n")⟩, ⟨some (jstr "More.")⟩]⟩]

/-- Modelled from the spec: the memoization table and global round-robin cursor of the Author Allocator (spec section 4.4). The source declares the author pool (the authors field of Configuration) and the author subselector (the author field of the Article interface) but ships no allocator implementation under src, so the allocator state is modelled from the specification. -/
structure AllocState where
  memo : List ((JStr × Nat) × JStr)
  cursor : Nat
deriving DecidableEq, Repr

/-- Modelled from the spec: the fixed placeholder byline used when the author pool is empty or absent. -/
def fallbackAuthor : JStr := jstr "Staff"

/-- Lookup of a memoized byline for one (article identity, slot index) pair. -/
def memoLookup (a : JStr) (k : Nat) : List ((JStr × Nat) × JStr) → Option JStr
  | [] => none
  | e :: rest => if e.1 = (a, k) then some e.2 else memoLookup a k rest

/-- Modelled from the spec: assign(authorPool, article, slotIndex). The first call for a pair consumes the next pool name in round-robin order, wrapping the cursor with modulo, memoizes it and advances the cursor once; later calls for the same pair return the memoized name unchanged; an empty pool yields the fixed fallback name. -/
def assign (pool : List JStr) (a : JStr) (k : Nat) (st : AllocState) : JStr × AllocState :=
  match memoLookup a k st.memo with
  | some r => (r, st)
  | none =>
    let name := (pool.get? (st.cursor % pool.length)).getD fallbackAuthor
    (name, { memo := st.memo ++ [((a, k), name)], cursor := st.cursor + 1 })

/-- A sequence of further allocator calls, as performed by later bound elements and by the second binding pass. -/
def runCalls (pool : List JStr) (calls : List (JStr × Nat)) (st : AllocState) : AllocState :=
  calls.foldl (fun s c => (assign pool c.1 c.2 s).2) st

/-- Truthiness of an optional JavaScript string: undefined and the empty string are falsy. -/
def truthy : Option JStr → Bool
  | none => false
  | some s => !s.isEmpty

/-- A slot specification: the Article interface of the source used as per-selector configuration, each field an optional subselector string. The title field is optional so that an object lacking the property is distinguished from one carrying the empty string. -/
structure ArticleSpec where
  title : Option JStr := none
  href : Option JStr := none
  subtitle : Option JStr := none
  image : Option JStr := none
  author : Option JStr := none
deriving DecidableEq, Repr

/-- A child node inside one template element, identified by the subselector string it matches; tag and src model the img element produced by replaceWith. -/
structure ChildNode where
  sel : JStr
  tag : JStr := []
  text : JStr := []
  href : JStr := []
  src : JStr := []
deriving DecidableEq, Repr

/-- One template element of the front page: sel is the configured selector it matches; cheerio find with a subselector yields the children whose sel field equals that subselector. -/
structure Elem where
  sel : JStr
  text : JStr := []
  href : JStr := []
  children : List ChildNode := []
deriving DecidableEq, Repr

/-- Set the text of every child matching the subselector, as title.text and subtitle.text do. -/
def setChildText (sub t : JStr) (cs : List ChildNode) : List ChildNode :=
  cs.map (fun c => if c.sel = sub then { c with text := t } else c)

/-- Set the href attribute of every child matching the subselector. -/
def setChildHref (sub link : JStr) (cs : List ChildNode) : List ChildNode :=
  cs.map (fun c => if c.sel = sub then { c with href := link } else c)

/-- Embedding of image.replaceWith: every child matching the subselector is replaced by a fresh img element carrying the given src. -/
def replaceChildWithImg (sub src : JStr) (cs : List ChildNode) : List ChildNode :=
  cs.map (fun c => if c.sel = sub then
    { sel := jstr "img", tag := jstr "img", text := [], href := [], src := src } else c)

/-- Embedding of image.remove: drop every child matching the subselector. -/
def removeChildren (sub : JStr) (cs : List ChildNode) : List ChildNode :=
  cs.filter (fun c => c.sel ≠ sub)

/-- Placeholder for an out-of-range article access; the guards in processArticles keep every index used by the callback below the article count, so this value is never read. -/
def undefinedArticle : FullArticle := { title := [], subtitle := none, body := [], image := none }

/-- Embedding of the each callback body of processArticles (src/autospoof.ts lines 339-359): set the title text at the title subselector when one is configured, else on the element itself; set the href to articlesFolder, slash, slug, .html likewise; when an image subselector is configured, replace its nodes by an img element if the article has an image and remove them otherwise; set the subtitle text at its subselector when configured. -/
def bindElem (spec : ArticleSpec) (art : FullArticle) (articlesFolder imagesFolder : JStr) (e : Elem) : Elem :=
  let link := articlesFolder ++ jstr "/" ++ safeName art.title ++ jstr ".html"
  let e1 := if truthy spec.title then
      { e with children := setChildText (spec.title.getD []) art.title e.children }
    else { e with text := art.title }
  let e2 := if truthy spec.href then
      { e1 with children := setChildHref (spec.href.getD []) link e1.children }
    else { e1 with href := link }
  let src := imagesFolder ++ jstr "/" ++ art.image.getD []
  let e3 := if truthy spec.image then
      (if truthy art.image then
        { e2 with children := replaceChildWithImg (spec.image.getD []) src e2.children }
      else { e2 with children := removeChildren (spec.image.getD []) e2.children })
    else e2
  if truthy spec.subtitle then
    { e3 with children := setChildText (spec.subtitle.getD []) (art.subtitle.getD []) e3.children }
  else e3

/-- Embedding of the selector each loop (src/autospoof.ts lines 338-362). The callback parameter i shadows the outer cursor declared at line 335 and receives the index of the element within the selection; the callback binds articles[i], increments its local copy, and returns the comparison of that copy with the article count, which cheerio reads as whether to continue iterating; elements of the selection after a false return stay untouched, and elements not matching the selector are passed over without advancing the selection index. -/
def eachLoop (selector : JStr) (spec : ArticleSpec) (articles : List FullArticle)
    (articlesFolder imagesFolder : JStr) : List Elem → Nat → List Elem
  | [], _ => []
  | e :: rest, idx =>
    if e.sel = selector then
      let e2 := bindElem spec (articles.getD idx undefinedArticle) articlesFolder imagesFolder e
      if idx + 1 < articles.length then
        e2 :: eachLoop selector spec articles articlesFolder imagesFolder rest (idx + 1)
      else e2 :: rest
    else e :: eachLoop selector spec articles articlesFolder imagesFolder rest idx

/-- Embedding of the selector loop of processArticles (src/autospoof.ts lines 336-367). The outer cursor i, declared at line 335, is threaded unchanged: the each callback parameter shadows it, so no code path modifies it; the removal branch compares the same unchanged cursor with the article count, and removes every element matching the selector when it fires. -/
def processLoop (articles : List FullArticle) (articlesFolder imagesFolder : JStr) (i : Nat) :
    List (JStr × ArticleSpec) → List Elem → List Elem
  | [], doc => doc
  | (selector, spec) :: cfg, doc =>
    let doc1 := if i < articles.length then
        eachLoop selector spec articles articlesFolder imagesFolder doc 0
      else doc
    let doc2 := if articles.length ≤ i then doc1.filter (fun e => e.sel ≠ selector) else doc1
    processLoop articles articlesFolder imagesFolder i cfg doc2

/-- Embedding of processArticles (src/autospoof.ts lines 334-369): run the selector loop over the configuration entries in order, starting the outer cursor at zero. -/
def processArticles (doc : List Elem) (config : List (JStr × ArticleSpec))
    (articles : List FullArticle) (articlesFolder imagesFolder : JStr) : List Elem :=
  processLoop articles articlesFolder imagesFolder 0 config doc

/-- A bare article with the given title, for the binder scenarios. -/
def artN (t : String) : FullArticle := { title := jstr t, subtitle := some [], body := [], image := none }

/-- A bare template element matching the given selector. -/
def elemOf (s : String) : Elem := { sel := jstr s }

/-- The three ordered articles of the end-to-end front-page scenario of C1. -/
def c1Articles : List FullArticle := [artN "One", artN "Two", artN "Three"]

/-- The template of the C1 scenario: two elements matched by the first selector and five by the second. -/
def c1Doc : List Elem :=
  [elemOf "s1", elemOf "s1", elemOf "s2", elemOf "s2", elemOf "s2", elemOf "s2", elemOf "s2"]

/-- The slot configuration of the C1 scenario: two selectors with no subselectors. -/
def c1Config : List (JStr × ArticleSpec) := [(jstr "s1", {}), (jstr "s2", {})]

/-- What processArticles produces on the C1 scenario. -/
def c1Result : List Elem := processArticles c1Doc c1Config c1Articles (jstr "./articles") (jstr "./images")

/-- The single article of the C2 scenario. -/
def c2Articles : List FullArticle := [artN "Solo"]

/-- The template of the C2 scenario: one element for each of two selectors. -/
def c2Doc : List Elem := [elemOf "a", elemOf "b"]

/-- The slot configuration of the C2 scenario. -/
def c2Config : List (JStr × ArticleSpec) := [(jstr "a", {}), (jstr "b", {})]

/-- What processArticles produces on the C2 scenario. -/
def c2Result : List Elem := processArticles c2Doc c2Config c2Articles (jstr "./articles") (jstr "./images")

/-- A gaxios response as unwrap sees it: status, payload, and the request URL quoted in the thrown message. -/
structure Response (α : Type) where
  status : Nat
  data : α
  responseURL : JStr
deriving Repr

/-- The message thrown by unwrap and logged by save for a non-success status. -/
def statusMsg (status : Nat) (url : JStr) : JStr :=
  jstr "Received status " ++ jstr (toString status) ++ jstr " while trying to access " ++ url

/-- Embedding of unwrap (src/autospoof.ts lines 309-314): a non-200 status throws the formatted message, otherwise the payload is returned. -/
def unwrap {α : Type} (res : Response α) : Except JStr α :=
  if res.status ≠ 200 then Except.error (statusMsg res.status res.responseURL)
  else Except.ok res.data

/-- Embedding of String.prototype.split with a one-unit separator: the chunks between occurrences of the separator. -/
def jsSplit (sep : Nat) : JStr → List JStr
  | [] => [[]]
  | u :: rest =>
    let r := jsSplit sep rest
    if u = sep then [] :: r
    else (u :: r.headD []) :: r.tail

/-- The fields of the image response that save reads: the status and the content-type header, which may be absent. -/
structure ImgResponse where
  status : Nat
  contentType : Option JStr
deriving Repr

/-- Embedding of save (src/autospoof.ts lines 387-411). A falsy url returns undefined without fetching. On a success status the filename expression at line 396 carries a stray second plus sign, so it parses as the basename concatenated with the unary plus of the dot string: the unary plus coerces that non-numeric string to NaN, which concatenates as the three letters NaN, and the dot itself never appears in the filename. A missing content-type header makes the split call throw a TypeError, modelled as the error case, and a subtype position past the end of the split concatenates as the word undefined. A non-success status logs and returns undefined. -/
def save (fetchImg : JStr → ImgResponse) (basename : JStr) (url : Option JStr) :
    Except JStr (Option JStr) :=
  if !truthy url then Except.ok none
  else
    let res := fetchImg (url.getD [])
    if res.status = 200 then
      match res.contentType with
      | none => Except.error (jstr "TypeError: cannot read properties of undefined")
      | some ct =>
        Except.ok (some (basename ++ jstr "NaN" ++ ((jsSplit 47 ct).getD 1 (jstr "undefined"))))
    else Except.ok none

/-- One entry of the drive file listing: id and name may each be absent. -/
structure GFile where
  id : Option JStr
  name : Option JStr
deriving Repr

/-- The parts of a fetched document that the loop reads: the body content and the optional content URIs of the first inline and the first positioned object. -/
structure RawDoc where
  content : List StructuralElement
  inlineUri : Option JStr := none
  positionedUri : Option JStr := none
deriving Repr

/-- Embedding of the or-else between the two optional content URIs (src/autospoof.ts lines 461-462): the first operand when truthy, else the second. -/
def jsOr (a b : Option JStr) : Option JStr := if truthy a then a else b

/-- Embedding of the document loop of spoof (src/autospoof.ts lines 435-465). Entries with a falsy id or name are skipped; the document fetch goes through unwrap, whose throw propagates out of the loop and aborts the run; the image goes through save, whose throw propagates likewise; each successfully processed document contributes one article in listing order. -/
def processDocs (fetchDoc : JStr → Response RawDoc) (fetchImg : JStr → ImgResponse) :
    List GFile → Except JStr (List FullArticle)
  | [] => Except.ok []
  | f :: rest =>
    if !truthy f.id || !truthy f.name then processDocs fetchDoc fetchImg rest
    else do
      let name := f.name.getD []
      let doc ← unwrap (fetchDoc (f.id.getD []))
      let image ← save fetchImg (safeName name) (jsOr doc.inlineUri doc.positionedUri)
      let rest2 ← processDocs fetchDoc fetchImg rest
      Except.ok (extractArticle name doc.content image :: rest2)

/-- The document fetch of the C7 scenario: the second document answers with status 500, the others succeed with a one-run body. -/
def c7Fetch : JStr → Response RawDoc := fun id =>
  if id = jstr "d2" then { status := 500, data := { content := [] }, responseURL := jstr "doc2" }
  else { status := 200, data := { content := [⟨some [⟨some (jstr "Hi.")⟩]⟩] }, responseURL := id }

/-- An image fetch that always fails, for the C7 scenario; the listed documents carry no image URI, so it is only reached through the degradation conjunct. -/
def c7ImgFail : JStr → ImgResponse := fun _ => { status := 500, contentType := none }

/-- The first listed document of the C7 scenario. -/
def c7f1 : GFile := ⟨some (jstr "d1"), some (jstr "N1")⟩

/-- The second listed document of the C7 scenario, whose fetch fails. -/
def c7f2 : GFile := ⟨some (jstr "d2"), some (jstr "N2")⟩

/-- The third listed document of the C7 scenario. -/
def c7f3 : GFile := ⟨some (jstr "d3"), some (jstr "N3")⟩

/-- The article extracted from a successful C7 document with the given name. -/
def hiArticle (n : String) : FullArticle :=
  { title := jstr n, subtitle := some (jstr "Hi."), body := jstr "Hi.", image := none }

/-- One node of the article-page template, identified by the selector string it matches; tag and src model the img element produced by replaceWith. -/
structure PNode where
  sel : JStr
  tag : JStr := []
  text : JStr := []
  src : JStr := []
deriving DecidableEq, Repr

/-- The per-field selectors of the article entry of the configuration: title and body are required selector strings, subtitle and image optional. -/
structure ArticleCfg where
  title : JStr
  body : JStr
  subtitle : Option JStr := none
  image : Option JStr := none
deriving Repr

/-- Set the text of every article-page node matching the selector. -/
def setNodeText (s t : JStr) (doc : List PNode) : List PNode :=
  doc.map (fun n => if n.sel = s then { n with text := t } else n)

/-- Embedding of one iteration of the article write loop (src/autospoof.ts lines 487-498): set the title and body text, the subtitle when configured, and replace or remove the image nodes according to the article, every mutation acting on the document passed in. -/
def bindArticlePage (cfg : ArticleCfg) (art : FullArticle) (doc : List PNode) : List PNode :=
  let d1 := setNodeText cfg.title art.title doc
  let d2 := setNodeText cfg.body art.body d1
  let d3 := if truthy cfg.subtitle then
      setNodeText (cfg.subtitle.getD []) (art.subtitle.getD []) d2
    else d2
  if truthy cfg.image then
    (if truthy art.image then
      d3.map (fun n => if n.sel = cfg.image.getD [] then
        { sel := jstr "img", tag := jstr "img", text := [],
          src := jstr "../images/" ++ art.image.getD [] } else n)
    else d3.filter (fun n => n.sel ≠ cfg.image.getD []))
  else d3

/-- Embedding of the article write loop (src/autospoof.ts lines 486-500): the single articlePage document is mutated in place across the iterations, and its current state is serialized as the page of each article in turn. -/
def renderArticlePages (cfg : ArticleCfg) (doc : List PNode) :
    List FullArticle → List (JStr × List PNode)
  | [] => []
  | art :: rest =>
    let d2 := bindArticlePage cfg art doc
    (safeName art.title ++ jstr ".html", d2) :: renderArticlePages cfg d2 rest

/-- Stated from the claim wording of C8: each article page bound against a freshly loaded, independently owned instance of the template. -/
def renderArticlePagesSpec (cfg : ArticleCfg) (tpl : List PNode)
    (arts : List FullArticle) : List (JStr × List PNode) :=
  arts.map (fun art => (safeName art.title ++ jstr ".html", bindArticlePage cfg art tpl))

/-- The img element injected by replaceWith for the image filename of an article, as the article write loop builds it. -/
def imgNodeFor (art : FullArticle) : PNode :=
  { sel := jstr "img", tag := jstr "img", text := [], src := jstr "../images/" ++ art.image.getD [] }

/-- The article-page configuration of the C8 scenario: title and body selectors plus an image selector. -/
def c8Cfg : ArticleCfg := { title := jstr ".t", body := jstr ".b", image := some (jstr ".hero") }

/-- The article-page template of the C8 scenario: a title node, a body node and an image placeholder. -/
def c8Tpl : List PNode := [{ sel := jstr ".t" }, { sel := jstr ".b" }, { sel := jstr ".hero" }]

/-- The first article of the C8 scenario, which carries an image. -/
def c8A1 : FullArticle :=
  { title := jstr "First", subtitle := some [], body := jstr "B1", image := some (jstr "first.png") }

/-- The second article of the C8 scenario, which has no image. -/
def c8A2 : FullArticle :=
  { title := jstr "Second", subtitle := some [], body := jstr "B2", image := none }

/-- One value of the loosely-typed ArticleList mapping: null, a bare display string, or a full slot-specification object. YAML parsing produces only these shapes, so the String wrapper-object arm of the source condition cannot fire and is not modelled. -/
inductive SlotVal where
  | null : SlotVal
  | str : JStr → SlotVal
  | obj : ArticleSpec → SlotVal
deriving DecidableEq, Repr

/-- Embedding of normalize (src/autospoof.ts lines 261-277): iterate the entries in order, mapping null to a record whose only field is the empty title, a bare string to a record whose only field is that string as title, and passing every object through unchanged. -/
def normalize : List (JStr × SlotVal) → List (JStr × ArticleSpec)
  | [] => []
  | (k, SlotVal.null) :: rest => (k, { title := some [] }) :: normalize rest
  | (k, SlotVal.str s) :: rest => (k, { title := some s }) :: normalize rest
  | (k, SlotVal.obj a) :: rest => (k, a) :: normalize rest

/-- The per-entry action of normalize, used to state its pointwise characterization. -/
def normVal : SlotVal → ArticleSpec
  | SlotVal.null => { title := some [] }
  | SlotVal.str s => { title := some s }
  | SlotVal.obj a => a

theorem safeName_unit_fixed (u : Nat) :
    (if isLowerAlnum (lowUnit (if isLowerAlnum (lowUnit u) then lowUnit u else 45))
      then lowUnit (if isLowerAlnum (lowUnit u) then lowUnit u else 45) else 45)
    = (if isLowerAlnum (lowUnit u) then lowUnit u else 45) := by
  unfold isLowerAlnum lowUnit
  split_ifs <;> omega

/-- C10: the slug function safeName is idempotent, because each of its output units is a lowercase letter, a digit, or the hyphen, all of which safeName maps to themselves. -/
theorem safeName_idempotent (s : JStr) : safeName (safeName s) = safeName s := by
  unfold safeName jsToLower
  simp only [List.map_map]
  apply List.map_congr_left
  intro u _
  simp only [Function.comp]
  exact safeName_unit_fixed u

theorem runsLoop_eq_filter (name : JStr) (runs : List ParElement) (acc : JStr) :
    runsLoop name runs acc = acc ++ ((runs.map ParElement.content).filterMap (keptRun name)).flatten := by
  induction runs generalizing acc with
  | nil => simp [runsLoop]
  | cons r rest ih =>
    match h : r.content with
    | none => simp [runsLoop, h, keptRun, ih]
    | some t =>
      by_cases hc : t = [] ∨ jsToUpper (jsTrim t) = name
      · simp [runsLoop, h, hc, keptRun, ih]
      · simp [runsLoop, h, hc, keptRun, ih]

theorem bodyLoop_eq_filter (name : JStr) (content : List StructuralElement) (acc : JStr) :
    bodyLoop name content acc = acc ++ ((runContents content).filterMap (keptRun name)).flatten := by
  induction content generalizing acc with
  | nil => simp [bodyLoop, runContents]
  | cons se rest ih =>
    match h : se.elements with
    | none => simp [bodyLoop, h, runContents, List.filterMap_cons, ih]
    | some runs =>
      simp only [bodyLoop, h, ih, runsLoop_eq_filter, runContents, List.filterMap_cons,
        List.flatten_cons, List.map_append, List.filterMap_append, List.flatten_append,
        List.append_assoc]

/-- C5: for the document named FOO whose paragraphs carry the runs FOO, The actual story., More text., extraction yields the stated title, body and subtitle, the subtitle being the body text up to its first line break. -/
theorem extractArticle_foo :
    extractArticle (jstr "FOO") fooDoc none =
      { title := jstr "FOO"
        subtitle := some (jstr "The actual story.")
        body := jstr "The actual story.\nMore text."
        image := none } ∧
    splitFirstLine (jstr "The actual story.\nMore text.") = jstr "The actual story." := by
  decide

/-- C4 counterexample: for the document named Foo, the claimed case-insensitive skip rule drops the echoed title run, but the code uppercases only the run and keeps it, so the assembled bodies differ at this concrete input. -/
theorem bodyAssembly_case_cex :
    (extractArticle (jstr "Foo") cexC4Doc none).body = jstr "Foo\nMore." ∧
    specBodyC4 (jstr "Foo") cexC4Doc = jstr "More." ∧
    jstr "Foo\nMore." ≠ jstr "More." := by
  decide

/-- C4 amended: a run is skipped exactly when its content is absent, empty, or its trimmed content uppercased equals the document name verbatim (the name itself is not case-folded); the remaining contents are concatenated in document order and the result is trimmed. -/
theorem bodyAssembly_skip_rule (name : JStr) (content : List StructuralElement) (img : Option JStr) :
    (extractArticle name content img).body
      = jsTrim (((runContents content).filterMap (keptRun name)).flatten) := by
  unfold extractArticle rawBody
  rw [bodyLoop_eq_filter]
  simp

theorem memoLookup_append_left (a : JStr) (k : Nat) (l l2 : List ((JStr × Nat) × JStr)) (r : JStr)
    (h : memoLookup a k l = some r) : memoLookup a k (l ++ l2) = some r := by
  induction l with
  | nil => simp [memoLookup] at h
  | cons e rest ih =>
    rw [List.cons_append]
    rw [memoLookup] at h ⊢
    split_ifs at h ⊢ with he
    · exact h
    · exact ih h

theorem memoLookup_append_none (a : JStr) (k : Nat) (l l2 : List ((JStr × Nat) × JStr))
    (h : memoLookup a k l = none) : memoLookup a k (l ++ l2) = memoLookup a k l2 := by
  induction l with
  | nil => rw [List.nil_append]
  | cons e rest ih =>
    rw [List.cons_append]
    rw [memoLookup] at h ⊢
    split_ifs at h ⊢ with he
    exact ih h

theorem assign_lookup_self (pool : List JStr) (a : JStr) (k : Nat) (st : AllocState) :
    memoLookup a k (assign pool a k st).2.memo = some (assign pool a k st).1 := by
  unfold assign
  match h : memoLookup a k st.memo with
  | some r => simp [h]
  | none =>
    simp only [h]
    rw [memoLookup_append_none a k st.memo _ h]
    simp [memoLookup]

theorem assign_preserves_lookup (pool : List JStr) (a b : JStr) (k j : Nat) (st : AllocState)
    (r : JStr) (h : memoLookup a k st.memo = some r) :
    memoLookup a k (assign pool b j st).2.memo = some r := by
  unfold assign
  match hb : memoLookup b j st.memo with
  | some q => simpa [hb]
  | none =>
    simp only [hb]
    exact memoLookup_append_left a k st.memo _ r h

theorem runCalls_preserves_lookup (pool : List JStr) (a : JStr) (k : Nat)
    (calls : List (JStr × Nat)) (st : AllocState) (r : JStr)
    (h : memoLookup a k st.memo = some r) :
    memoLookup a k (runCalls pool calls st).memo = some r := by
  induction calls generalizing st with
  | nil => simpa [runCalls]
  | cons c rest ih =>
    unfold runCalls
    simp only [List.foldl_cons]
    exact ih _ (assign_preserves_lookup pool a c.1 k c.2 st r h)

theorem assign_memo_hit (pool : List JStr) (a : JStr) (k : Nat) (st : AllocState) (r : JStr)
    (h : memoLookup a k st.memo = some r) : assign pool a k st = (r, st) := by
  unfold assign
  simp [h]

/-- C3: author assignment is a memoized round-robin over the configured pool. A first lookup for an (article, slot-index) pair takes the pool name at the cursor position modulo the pool length, advances the cursor by one and memoizes the name; a memoized lookup returns the stored name and leaves the state unchanged; the name assigned to a pair is stable under any sequence of later allocator calls, which covers both the front-page and the article-page binding passes; and an empty pool yields the fixed fallback placeholder. -/
theorem assign_round_robin (pool : List JStr) (a : JStr) (k : Nat) (st : AllocState)
    (calls : List (JStr × Nat)) :
    (memoLookup a k st.memo = none →
      (assign pool a k st).1 = (pool.get? (st.cursor % pool.length)).getD fallbackAuthor ∧
      (assign pool a k st).2.cursor = st.cursor + 1) ∧
    (∀ r, memoLookup a k st.memo = some r → assign pool a k st = (r, st)) ∧
    (assign pool a k (runCalls pool calls (assign pool a k st).2)).1 = (assign pool a k st).1 ∧
    (pool = [] → memoLookup a k st.memo = none → (assign pool a k st).1 = fallbackAuthor) := by
  refine ⟨?_, ?_, ?_, ?_⟩
  · intro h
    unfold assign
    simp [h]
  · intro r h
    exact assign_memo_hit pool a k st r h
  · have h1 := assign_lookup_self pool a k st
    have h2 := runCalls_preserves_lookup pool a k calls _ _ h1
    have h3 := assign_memo_hit pool a k (runCalls pool calls (assign pool a k st).2) _ h2
    rw [h3]
  · intro hp h
    unfold assign
    simp [h, hp, fallbackAuthor]

/-- The concrete two-name pool used to witness the allocator theorem. -/
def demoPool : List JStr := [jstr "Alice", jstr "Bob"]

theorem assign_round_robin_witness :
    (assign demoPool (jstr "T1") 0 ⟨[], 0⟩).1 = jstr "Alice" ∧
    (assign demoPool (jstr "T1") 0 ⟨[], 0⟩).2.cursor = 1 ∧
    (assign demoPool (jstr "T1") 0
      (runCalls demoPool [(jstr "T2", 0)] (assign demoPool (jstr "T1") 0 ⟨[], 0⟩).2)).1
      = jstr "Alice" ∧
    (assign ([] : List JStr) (jstr "T1") 0 ⟨[], 0⟩).1 = fallbackAuthor := by
  have h := assign_round_robin demoPool (jstr "T1") 0 ⟨[], 0⟩ [(jstr "T2", 0)]
  have h0 := assign_round_robin ([] : List JStr) (jstr "T1") 0 ⟨[], 0⟩ []
  refine ⟨?_, (h.1 rfl).2, ?_, h0.2.2.2 rfl rfl⟩
  · rw [(h.1 rfl).1]
    decide
  · rw [h.2.2.1, (h.1 rfl).1]
    decide

/-- C1 evaluated on the code: in the end-to-end scenario the consumption cursor is not shared across selectors, because the each callback parameter shadows it. Both first-selector elements are bound to articles one and two, but the second selector restarts at article one: its first three elements carry articles one, two, three, its last two stay unbound, and no element is removed, against the claimed binding of article three alone and removal of the four surplus elements. -/
theorem processArticles_shadowed_cursor :
    c1Result.length = 7 ∧
    (c1Result.filter (fun e => e.sel = jstr "s1")).map Elem.text = [jstr "One", jstr "Two"] ∧
    (c1Result.filter (fun e => e.sel = jstr "s2")).map Elem.text
      = [jstr "One", jstr "Two", jstr "Three", [], []] := by
  decide

/-- C2 evaluated on the code: with one article and two one-element selectors, both elements end up bound, so the number of bound elements exceeds the article supply, and no surplus element is removed, because the shadowed cursor keeps the outer index at zero. -/
theorem processArticles_overbinds :
    (c2Result.filter (fun e => e.text ≠ [])).length = 2 ∧
    c2Articles.length = 1 ∧
    c2Result = [{ elemOf "a" with text := jstr "Solo", href := jstr "./articles/solo.html" },
                { elemOf "b" with text := jstr "Solo", href := jstr "./articles/solo.html" }] := by
  decide

/-- C6 evaluated on the code: with a success status and content-type image/jpeg, the filename saved for the slug of title A is aNaNjpeg rather than a.jpeg, because the stray unary plus coerces the dot to NaN before concatenation; and a missing content-type header throws a TypeError instead of treating the image as unresolvable. -/
theorem save_filename_nan :
    save (fun _ => { status := 200, contentType := some (jstr "image/jpeg") })
        (safeName (jstr "A")) (some (jstr "http://img"))
      = Except.ok (some (jstr "aNaNjpeg")) ∧
    jstr "aNaNjpeg" ≠ safeName (jstr "A") ++ jstr "." ++ jstr "jpeg" ∧
    save (fun _ => { status := 200, contentType := none })
        (safeName (jstr "A")) (some (jstr "http://img"))
      = Except.error (jstr "TypeError: cannot read properties of undefined") := by
  refine ⟨rfl, by decide, rfl⟩

/-- C7 counterexample: with three listed documents whose second fetch answers status 500, the run aborts with the unwrap throw and produces no articles at all, while the same run without the failing entry extracts both remaining documents; the failing document is not merely removed from the output set with processing continuing. -/
theorem docFetch_aborts_run_cex :
    processDocs c7Fetch c7ImgFail [c7f1, c7f2, c7f3] = Except.error (statusMsg 500 (jstr "doc2")) ∧
    processDocs c7Fetch c7ImgFail [c7f1, c7f3]
      = Except.ok [hiArticle "N1", hiArticle "N3"] := by
  refine ⟨rfl, rfl⟩

/-- C7 amended: a non-success status from fetching a single document aborts the entire run, because the unwrap throw propagates out of the document loop whatever its position and whatever documents follow, while a failed image fetch merely degrades, with save returning undefined for that one article. -/
theorem docFetch_aborts_run (fd : JStr → Response RawDoc) (fi : JStr → ImgResponse)
    (pre post : List GFile) (f : GFile) (l : List FullArticle)
    (h1 : processDocs fd fi pre = Except.ok l)
    (h2 : truthy f.id = true) (h3 : truthy f.name = true)
    (h4 : (fd (f.id.getD [])).status ≠ 200) :
    processDocs fd fi (pre ++ f :: post)
      = Except.error (statusMsg (fd (f.id.getD [])).status (fd (f.id.getD [])).responseURL) ∧
    (∀ basename u, truthy (some u) = true → (fi u).status ≠ 200 →
      save fi basename (some u) = Except.ok none) := by
  constructor
  · induction pre generalizing l with
    | nil =>
      rw [List.nil_append]
      unfold processDocs
      rw [h2, h3]
      simp only [Bool.not_true, Bool.or_self, Bool.false_eq_true, if_false]
      unfold unwrap
      rw [if_pos h4]
      rfl
    | cons g rest ih =>
      rw [List.cons_append]
      unfold processDocs at h1 ⊢
      by_cases hg : (!truthy g.id || !truthy g.name) = true
      · rw [if_pos hg] at h1
        rw [if_pos hg]
        exact ih l h1
      · rw [if_neg hg] at h1
        rw [if_neg hg]
        cases hu : unwrap (fd (g.id.getD [])) with
        | error e => simp [hu, Bind.bind, Except.bind] at h1
        | ok d =>
          cases hs : save fi (safeName (g.name.getD [])) (jsOr d.inlineUri d.positionedUri) with
          | error e => simp [hu, hs, Bind.bind, Except.bind] at h1
          | ok img =>
            cases hr : processDocs fd fi rest with
            | error e => simp [hu, hs, hr, Bind.bind, Except.bind] at h1
            | ok l2 =>
              simp only [hu, hs, Bind.bind, Except.bind] at h1 ⊢
              rw [ih l2 hr]
  · intro basename u hu hs
    unfold save
    simp [hu, hs]

/-- Closed instance of the C7 amended theorem at the concrete scenario: every hypothesis is discharged at the listed documents, and the degradation conjunct is instantiated at a concrete image fetch. -/
theorem docFetch_aborts_run_witness :
    processDocs c7Fetch c7ImgFail ([c7f1] ++ c7f2 :: [c7f3])
      = Except.error (statusMsg (c7Fetch (c7f2.id.getD [])).status
          (c7Fetch (c7f2.id.getD [])).responseURL) ∧
    save c7ImgFail (jstr "a") (some (jstr "u")) = Except.ok none := by
  have h := docFetch_aborts_run c7Fetch c7ImgFail [c7f1] [c7f3] c7f2 [hiArticle "N1"]
    rfl (by decide) (by decide) (by decide)
  exact ⟨h.1, h.2 (jstr "a") (jstr "u") (by decide) (by decide)⟩

/-- C8 counterexample: the pages are written from one shared template instance; the second article has no image, yet its serialized page still contains the img element injected while binding the first article, so it differs from the page bound against a fresh instance. -/
theorem articlePages_shared_cex :
    ((renderArticlePages c8Cfg c8Tpl [c8A1, c8A2]).getD 1 ([], [])).2
      = [{ sel := jstr ".t", text := jstr "Second" }, { sel := jstr ".b", text := jstr "B2" },
         { sel := jstr "img", tag := jstr "img", src := jstr "../images/first.png" }] ∧
    ((renderArticlePagesSpec c8Cfg c8Tpl [c8A1, c8A2]).getD 1 ([], [])).2
      = [{ sel := jstr ".t", text := jstr "Second" }, { sel := jstr ".b", text := jstr "B2" }] ∧
    renderArticlePages c8Cfg c8Tpl [c8A1, c8A2]
      ≠ renderArticlePagesSpec c8Cfg c8Tpl [c8A1, c8A2] := by
  decide

theorem setNodeText_mem_sel (s t x : JStr) (doc : List PNode)
    (h : ∃ n ∈ doc, n.sel = x) : ∃ n ∈ setNodeText s t doc, n.sel = x := by
  obtain ⟨n, hn, hx⟩ := h
  by_cases hc : n.sel = s
  · refine ⟨{ n with text := t }, ?_, hx⟩
    have hm := List.mem_map_of_mem (fun m => if m.sel = s then { m with text := t } else m) hn
    simpa [setNodeText, hc] using hm
  · refine ⟨n, ?_, hx⟩
    have hm := List.mem_map_of_mem (fun m => if m.sel = s then { m with text := t } else m) hn
    simpa [setNodeText, hc] using hm

theorem setNodeText_mem_of_ne (s t : JStr) (doc : List PNode) (n : PNode)
    (hn : n ∈ doc) (hs : n.sel ≠ s) : n ∈ setNodeText s t doc := by
  have hm := List.mem_map_of_mem (fun m => if m.sel = s then { m with text := t } else m) hn
  simpa [setNodeText, hs] using hm

/-- C8 amended: all article pages are produced by mutating a single shared template instance loaded once; title and body text are overwritten on every iteration, but image mutations persist: when an earlier article carries an image and a later one does not, the later page keeps the img element of the earlier article, because its removal targets the placeholder selector that the replacement already consumed. -/
theorem articlePages_shared_template (cfg : ArticleCfg) (tpl : List PNode) (a b : FullArticle)
    (h1 : truthy cfg.image = true) (h2 : truthy a.image = true) (h3 : truthy b.image = false)
    (h4 : ∃ n ∈ tpl, n.sel = cfg.image.getD [])
    (h5 : cfg.title ≠ jstr "img") (h6 : cfg.body ≠ jstr "img")
    (h7 : truthy cfg.subtitle = true → cfg.subtitle.getD [] ≠ jstr "img")
    (h8 : cfg.image.getD [] ≠ jstr "img") :
    ∃ n ∈ ((renderArticlePages cfg tpl [a, b]).getD 1 ([], [])).2,
      n.tag = jstr "img" ∧ n.src = jstr "../images/" ++ a.image.getD [] := by
  have hgoal : ((renderArticlePages cfg tpl [a, b]).getD 1 ([], [])).2
      = bindArticlePage cfg b (bindArticlePage cfg a tpl) := rfl
  rw [hgoal]
  have himg : imgNodeFor a ∈ bindArticlePage cfg a tpl := by
    unfold bindArticlePage
    rw [h1, h2]
    simp only [if_true]
    have hd3 : ∃ n ∈ (if truthy cfg.subtitle then
        setNodeText (cfg.subtitle.getD []) (a.subtitle.getD [])
          (setNodeText cfg.body a.body (setNodeText cfg.title a.title tpl))
      else setNodeText cfg.body a.body (setNodeText cfg.title a.title tpl)),
        n.sel = cfg.image.getD [] := by
      by_cases hsub : truthy cfg.subtitle = true
      · rw [hsub]
        simp only [if_true]
        exact setNodeText_mem_sel _ _ _ _ (setNodeText_mem_sel _ _ _ _ (setNodeText_mem_sel _ _ _ _ h4))
      · rw [Bool.not_eq_true] at hsub
        rw [hsub]
        simp only [Bool.false_eq_true, if_false]
        exact setNodeText_mem_sel _ _ _ _ (setNodeText_mem_sel _ _ _ _ h4)
    obtain ⟨m, hm, hmsel⟩ := hd3
    have hmm := List.mem_map_of_mem (fun n => if n.sel = cfg.image.getD [] then
      ({ sel := jstr "img", tag := jstr "img", text := [],
         src := jstr "../images/" ++ a.image.getD [] } : PNode) else n) hm
    simpa [hmsel, imgNodeFor] using hmm
  set D1 := bindArticlePage cfg a tpl with hD1
  unfold bindArticlePage
  rw [h1, h3]
  simp only [if_true, Bool.false_eq_true, if_false]
  refine ⟨imgNodeFor a, ?_, rfl, rfl⟩
  apply List.mem_filter.mpr
  constructor
  · have hstep1 := setNodeText_mem_of_ne cfg.title b.title _ _ himg (fun hc => h5 hc.symm)
    have hstep2 := setNodeText_mem_of_ne cfg.body b.body _ _ hstep1 (fun hc => h6 hc.symm)
    by_cases hsub : truthy cfg.subtitle = true
    · rw [hsub]
      simp only [if_true]
      exact setNodeText_mem_of_ne _ _ _ _ hstep2 (fun hc => (h7 hsub) hc.symm)
    · rw [Bool.not_eq_true] at hsub
      rw [hsub]
      simp only [Bool.false_eq_true, if_false]
      exact hstep2
  · simpa [imgNodeFor] using fun hc => h8 hc.symm

/-- Closed instance of the C8 amended theorem at the concrete two-article scenario. -/
theorem articlePages_shared_template_witness :
    ∃ n ∈ ((renderArticlePages c8Cfg c8Tpl [c8A1, c8A2]).getD 1 ([], [])).2,
      n.tag = jstr "img" ∧ n.src = jstr "../images/" ++ c8A1.image.getD [] := by
  exact articlePages_shared_template c8Cfg c8Tpl c8A1 c8A2 rfl rfl rfl
    (by decide) (by decide) (by decide) (fun h => by simp [c8Cfg, truthy] at h) (by decide)

/-- C9 counterexample: an object entry lacking a title is passed through unchanged, its title still absent, rather than being normalized to the empty-title default the claim promises. -/
theorem normalize_missing_title_cex :
    normalize [(jstr ".slot", SlotVal.obj {})] = [(jstr ".slot", ({} : ArticleSpec))] ∧
    ({} : ArticleSpec).title = none ∧
    ({} : ArticleSpec).title ≠ some [] := by
  decide

/-- C9 amended: normalize is total on every input mapping and never fails: a null entry becomes a record with the empty-string title, a plain-string entry a record with that string as literal heading text, and every object entry, including one lacking a title, is passed through unchanged rather than receiving the empty-title default. -/
theorem normalize_total (l : List (JStr × SlotVal)) :
    normalize l = l.map (fun p => (p.1, normVal p.2)) ∧
    normVal SlotVal.null = { title := some [] } ∧
    (∀ s, normVal (SlotVal.str s) = { title := some s }) ∧
    (∀ a, normVal (SlotVal.obj a) = a) := by
  refine ⟨?_, rfl, fun s => rfl, fun a => rfl⟩
  induction l with
  | nil => rfl
  | cons p rest ih =>
    obtain ⟨k, v⟩ := p
    cases v <;> simp [normalize, normVal, ih]

end Autospoof
